import Mathlib

/-!
Verification development for `aider/mdstream.py` (`MarkdownStream`): a
streaming markdown renderer that progressively commits "stable" rendered
lines to permanent terminal output while repainting a trailing "live"
window, plus a helper that rewrites fenced mermaid blocks into viewer
links.

The external rendering collaborator (`_render_markdown_to_lines`, built on
`rich`) is modelled as a parameter `render : String → List String`
(deterministic, as §6 of the design requires).  The `zlib` compressor used
by the link generator is likewise modelled as a parameter
`pako_deflate : List Nat → List Nat` over byte lists.  Everything else —
Python slicing semantics (including negative indices), JSON serialization
of the link envelope, base64, the regex scan for mermaid fences, the
throttling / commit / repaint control flow of `update` — is translated
directly from the source.

Wall-clock timestamps (floats in the source) are modelled by `MTime`,
exact rational values represented as numerator / positive denominator
without normalization, so that all comparisons are kernel-computable.
-/

namespace MDStream

/-! ## Python slicing -/

/-- Clamp a Python slice index `k` against a list of length `n`:
negative indices count from the end, and out-of-range indices clamp. -/
def pyIdx (n : Nat) (k : Int) : Nat :=
  if k < 0 then (k + n).toNat else min k.toNat n

/-- Python `l[i:j]`. -/
def pySlice {α : Type} (l : List α) (i j : Int) : List α :=
  (l.take (pyIdx l.length j)).drop (pyIdx l.length i)

/-- Python `l[i:]`. -/
def pySliceFrom {α : Type} (l : List α) (i : Int) : List α :=
  l.drop (pyIdx l.length i)

/-! ## Time values

`MTime` models the exact real value of a float timestamp/duration as a
rational `num / den`.  No normalization is performed (so all operations
are plain integer arithmetic, computable by the kernel); comparisons are
exact cross-multiplication. -/

structure MTime where
  num : Int
  den : ℕ+
deriving DecidableEq, Repr

namespace MTime

/-- Strict comparison `a < b`, by cross multiplication. -/
def blt (a b : MTime) : Bool := a.num * (b.den : Int) < b.num * (a.den : Int)

/-- Non-strict comparison `a ≤ b`. -/
def ble (a b : MTime) : Bool := a.num * (b.den : Int) ≤ b.num * (a.den : Int)

/-- Subtraction `a - b`. -/
def sub (a b : MTime) : MTime :=
  ⟨a.num * (b.den : Int) - b.num * (a.den : Int), a.den * b.den⟩

/-- Multiplication by a natural literal (`render_time * 10`). -/
def mulNat (a : MTime) (k : Nat) : MTime := ⟨a.num * (k : Int), a.den⟩

/-- Python `max(a, b)` (returns the first argument on ties). -/
def pmax (a b : MTime) : MTime := if ble b a then a else b

/-- Python `min(a, b)` (returns the first argument on ties). -/
def pmin (a b : MTime) : MTime := if ble a b then a else b

/-- The literal `0`. -/
def zero : MTime := ⟨0, 1⟩

/-- The literal `1.0 / 20` (the 20 fps floor). -/
def oneTwentieth : MTime := ⟨1, 20⟩

/-- The literal `2` (the delay ceiling). -/
def twoSec : MTime := ⟨2, 1⟩

end MTime

/-! ## The mermaid link generator (`_generate_mermaid_link`) -/

/-- `js_string_to_byte`: `bytes(data, 'ascii')`.  Only ever applied to the
output of `json.dumps(..., ensure_ascii=True)`, which is pure ASCII, so
mapping code points to byte values is exact. -/
def js_string_to_byte (data : String) : List Nat :=
  data.toList.map Char.toNat

/-- `js_bytes_to_string`: `data.decode('ascii')`. -/
def js_bytes_to_string (data : List Nat) : String :=
  String.mk (data.map Char.ofNat)

/-- The base64 alphabet, as byte values. -/
def b64Alphabet : List Nat :=
  ("ABCDEFGHIJKLMNOPQRSTUVWXYZabcdefghijklmnopqrstuvwxyz0123456789+/".toList.map
    Char.toNat)

/-- The base64 digit for a 6-bit value. -/
def b64Digit (n : Nat) : Nat := b64Alphabet.getD n 0

/-- `js_btoa`: `base64.b64encode` on a byte list (61 is `'='` padding). -/
def js_btoa : List Nat → List Nat
  | b1 :: b2 :: b3 :: rest =>
    let c := (b1 % 256) * 65536 + (b2 % 256) * 256 + b3 % 256
    b64Digit (c / 262144) :: b64Digit (c / 4096 % 64) :: b64Digit (c / 64 % 64) ::
      b64Digit (c % 64) :: js_btoa rest
  | [b1, b2] =>
    let c := (b1 % 256) * 65536 + (b2 % 256) * 256
    [b64Digit (c / 262144), b64Digit (c / 4096 % 64), b64Digit (c / 64 % 64), 61]
  | [b1] =>
    let c := (b1 % 256) * 65536
    [b64Digit (c / 262144), b64Digit (c / 4096 % 64), 61, 61]
  | [] => []

/-- Lowercase hex digit, as used by `json.dumps` in `\uXXXX` escapes. -/
def hexDigit (n : Nat) : Char := "0123456789abcdef".toList.getD n '0'

/-- A `\uXXXX` escape for a 16-bit value. -/
def uEscape (n : Nat) : List Char :=
  ['\\', 'u', hexDigit (n / 4096 % 16), hexDigit (n / 256 % 16),
    hexDigit (n / 16 % 16), hexDigit (n % 16)]

/-- Escaping of one character inside a JSON string literal, following
`json.dumps` with its default `ensure_ascii=True`: printable ASCII other
than `"` and `\` is literal, the usual two-character escapes apply, and
everything else (controls and non-ASCII, with surrogate pairs above the
BMP) becomes `\uXXXX`. -/
def jsonEscapeChar (c : Char) : List Char :=
  if c = '"' then ['\\', '"']
  else if c = '\\' then ['\\', '\\']
  else if c = '\n' then ['\\', 'n']
  else if c = '\r' then ['\\', 'r']
  else if c = '\t' then ['\\', 't']
  else if c.toNat = 8 then ['\\', 'b']
  else if c.toNat = 12 then ['\\', 'f']
  else if 32 ≤ c.toNat ∧ c.toNat ≤ 126 then [c]
  else if c.toNat < 65536 then uEscape c.toNat
  else uEscape (55296 + (c.toNat - 65536) / 1024) ++ uEscape (56320 + (c.toNat - 65536) % 1024)

/-- `json.dumps` of a Python string. -/
def jsonString (s : String) : String :=
  String.mk ('"' :: (s.toList.map jsonEscapeChar).flatten ++ ['"'])

/-- `json.dumps(j_graph)` for the envelope built in the source:
`{"code": graph_markdown, "mermaid": {"theme": "default"}}`, with
`json.dumps`'s default separators and insertion-ordered keys. -/
def json_dumps_jgraph (graph_markdown : String) : String :=
  "\x7b\"code\": " ++ jsonString graph_markdown ++
    ", \"mermaid\": \x7b\"theme\": \"default\"\x7d\x7d"

/-- `MarkdownStream._generate_mermaid_link`, with the `zlib` compressor
(`pako_deflate`, a `compressobj(9, DEFLATED, 15, 8, Z_DEFAULT_STRATEGY)`
pipeline in the source) abstracted as a function on byte lists. -/
def generate_mermaid_link (pako_deflate : List Nat → List Nat)
    (graph_markdown : String) : String :=
  let byte_str := js_string_to_byte (json_dumps_jgraph graph_markdown)
  let deflated := pako_deflate byte_str
  let d_encode := js_btoa deflated
  "http://mermaid.live/view#pako:" ++ js_bytes_to_string d_encode

/-! ## The mermaid block scanner

`re.compile(r'<fence>mermaid\n(.*?)\n<fence>', re.DOTALL).finditer(text)`:
non-overlapping, leftmost matches; the lazy group takes the shortest body.
For this pattern that is: find the leftmost opener `fence-mermaid-newline`,
then the first `newline-fence` after it; continue after the match. -/

/-- Index of the first occurrence of `pat` in `s`, if any. -/
def findSub (pat : List Char) : List Char → Option Nat
  | [] => if pat = [] then some 0 else none
  | c :: rest =>
    if pat.isPrefixOf (c :: rest) then some 0
    else (findSub pat rest).map (· + 1)

/-- One `finditer` step after another, fuelled by the text length (every
match consumes at least 15 characters).  Produces `(match.end, group(1))`
pairs, with `match.end` an absolute offset into the original text. -/
def mermaidMatchesAux : Nat → Nat → List Char → List (Nat × String)
  | 0, _, _ => []
  | Nat.succ fuel, pos, s =>
    match findSub ("```mermaid\n".toList) s with
    | none => []
    | some i =>
      let afterOpen := s.drop (i + 11)
      match findSub ("\n```".toList) afterOpen with
      | none => []
      | some j =>
        let endAbs := pos + i + 11 + j + 4
        (endAbs, String.mk (afterOpen.take j)) ::
          mermaidMatchesAux fuel endAbs (afterOpen.drop (j + 4))

/-- All mermaid matches of `self.mermaid_pattern.finditer(text)`, as
`(end-offset, body)` pairs against the original text. -/
def mermaidMatches (text : String) : List (Nat × String) :=
  mermaidMatchesAux text.length 0 text.toList

/-- The f-string `"\n\n[View diagram]({link})\n"` inserted after a block. -/
def viewInsert (link : String) : String :=
  "\n\n[View diagram](" ++ link ++ ")\n"

/-- The mermaid-processing loop in `MarkdownStream.update`: matches are
found against the original `text`, but each insertion slices
`processed_text` — the string grown by the earlier insertions — at the
match's original end offset. -/
def processText (pako_deflate : List Nat → List Nat) (text : String) : String :=
  (mermaidMatches text).foldl
    (fun acc m =>
      let link := generate_mermaid_link pako_deflate m.2
      let cs := acc.toList
      String.mk (cs.take m.1 ++ (viewInsert link).toList ++ cs.drop m.1))
    text

/-- Follows the spec's words for §4.2 (the comparison point for the
insertion-offset claim): each generated link is inserted immediately
after its matched block, with insertion positions accounting for the
shift introduced by earlier insertions (equivalently, all insertions are
spliced against the original text's offsets). -/
def processTextSpec (pako_deflate : List Nat → List Nat) (text : String) : String :=
  let cs := text.toList
  let p := (mermaidMatches text).foldl
    (fun (acc : List Char × Nat) m =>
      (acc.1 ++ (cs.drop acc.2).take (m.1 - acc.2) ++
        (viewInsert (generate_mermaid_link pako_deflate m.2)).toList, m.1))
    ([], 0)
  String.mk (p.1 ++ cs.drop p.2)

/-! ## The renderer state machine

State of one `MarkdownStream` instance.  `liveOpen`/`live` model the rich
`Live` collaborator: `liveOpen = false` is `self.live = None` (any
attempted operation on it raises, which the step function reports as
`errored` with no output), and `live` is the current content of the
transient region. -/

structure MDState where
  printed : List String
  when : MTime
  min_delay : MTime
  liveOpen : Bool
  live : String
deriving DecidableEq, Repr

/-- Class attribute `live_window = 6`. -/
def live_window : Nat := 6

/-- A fresh instance: `printed = []`, class defaults `when = 0`,
`min_delay = 1.0 / 20`, and a started, empty `Live` display. -/
def initState : MDState :=
  { printed := [], when := MTime.zero, min_delay := MTime.oneTwentieth,
    liveOpen := true, live := "" }

/-- Observable outcome of one `update` call: the state afterwards, the
lines committed to permanent output above the live region (the source
prints their concatenation as one block), what the live region was
repainted with (if anything), and whether the call raised (attribute
access on `self.live = None`). -/
structure UpdateResult where
  st : MDState
  committed : List String
  repainted : Option String
  errored : Bool
deriving DecidableEq, Repr

/-- `MarkdownStream.update(text, final)`, translated line by line.

The external markdown formatter is the parameter `render`; `now` is the
`time.time()` value at entry and `renderTime` the measured duration of
the render call.  Control flow mirrors the source: throttle check, then
`self.when = now`, render, adjust `self.min_delay`; the rendered `lines`
come from the raw `text` (the mermaid-processed text is computed by
`processText` but never rendered — dead code, so it does not appear
here); `num_lines` loses `live_window` when not final; the commit branch
returns early when `show <= 0`; final cleanup closes the live display;
otherwise the live region is repainted with `lines[num_lines:]` (a
Python slice, hence the negative-index semantics of `pySliceFrom`). -/
def update (render : String → List String) (st : MDState)
    (now renderTime : MTime) (text : String) (final : Bool) : UpdateResult :=
  if final = false ∧ (now.sub st.when).blt st.min_delay then
    ⟨st, [], none, false⟩
  else
    let st1 : MDState := { st with when := now }
    let lines := render text
    let st2 : MDState :=
      { st1 with min_delay :=
          MTime.pmin (MTime.pmax (renderTime.mulNat 10) MTime.oneTwentieth) MTime.twoSec }
    let num_lines : Int :=
      if final = false then (lines.length : Int) - (live_window : Int)
      else (lines.length : Int)
    if final = true ∨ 0 < num_lines then
      let num_printed := st2.printed.length
      let showCount : Int := num_lines - (num_printed : Int)
      if showCount ≤ 0 then
        ⟨st2, [], none, false⟩
      else if st2.liveOpen = false then
        -- `self.live.console.print(...)` on a closed display raises
        ⟨st2, [], none, true⟩
      else
        let shown := pySlice lines (num_printed : Int) num_lines
        let st3 : MDState := { st2 with printed := pySlice lines 0 num_lines }
        if final = true then
          ⟨{ st3 with liveOpen := false, live := "" }, shown, some "", false⟩
        else
          let rest := String.join (pySliceFrom lines num_lines)
          ⟨{ st3 with live := rest }, shown, some rest, false⟩
    else
      if st2.liveOpen = false then
        -- `self.live.update(...)` on a closed display raises
        ⟨st2, [], none, true⟩
      else
        let rest := String.join (pySliceFrom lines num_lines)
        ⟨{ st2 with live := rest }, [], some rest, false⟩

/-- One call of a call sequence: its `time.time()` value, measured render
duration, accumulated text, and `final` flag. -/
structure CallInput where
  now : MTime
  renderTime : MTime
  text : String
  final : Bool
deriving DecidableEq, Repr

/-- `update` applied to one `CallInput`. -/
def step (render : String → List String) (st : MDState) (c : CallInput) : UpdateResult :=
  update render st c.now c.renderTime c.text c.final

/-- Run a sequence of calls from a state. -/
def runState (render : String → List String) (st : MDState) :
    List CallInput → MDState
  | [] => st
  | c :: cs => runState render (step render st c).st cs

/-- Run a sequence of calls, accumulating the permanent-output log
(committed lines, concatenated end to end). -/
def runLog (render : String → List String) (st : MDState) (log : List String) :
    List CallInput → MDState × List String
  | [] => (st, log)
  | c :: cs =>
    let r := step render st c
    runLog render r.st (log ++ r.committed) cs

/-- Prefix-stability of the rendering collaborator along a trace: before
each call, the lines recorded as printed are a prefix of that call's
render.  (The design's §4.1 rationale concedes that a markdown formatter
may retroactively change earlier lines; this predicate is exactly the
stability the commit algorithm relies on.) -/
def stableTrace (render : String → List String) : MDState → List CallInput → Bool
  | _, [] => true
  | st, c :: cs =>
    st.printed.isPrefixOf (render c.text) &&
      stableTrace render (step render st c).st cs

/-! ## Concrete rendering collaborators (used on concrete inputs) -/

/-- A simple deterministic formatter: one line per character. -/
def charRender (s : String) : List String :=
  s.toList.map (fun c => String.mk [c])

/-- Split a character list at newline characters. -/
def splitLines : List Char → List (List Char)
  | [] => [[]]
  | c :: rest =>
    if c = '\n' then [] :: splitLines rest
    else
      match splitLines rest with
      | [] => [[c]]
      | l :: ls => (c :: l) :: ls

/-- A simple deterministic formatter: split on newlines. -/
def lineRender (s : String) : List String := (splitLines s.toList).map String.mk

/-- A deterministic formatter whose later render changes an earlier line
(allowed for a markdown formatter: trailing context can retroactively
change how earlier lines render, per the design's own §4.1 rationale). -/
def renderA (s : String) : List String :=
  if s = "a" then ["1", "2", "3", "4", "5", "6", "7", "8"]
  else ["x", "2", "3", "4", "5", "6", "7", "8", "9"]

/-- A deterministic formatter whose second render keeps the line count
but rewrites every line. -/
def renderB (s : String) : List String :=
  if s = "a" then ["1", "2", "3", "4", "5", "6", "7", "8"]
  else ["x", "y", "z", "w", "v", "u", "t", "s"]

/-- A deterministic formatter whose render of the final text collapses to
a single line, then grows again. -/
def renderC (s : String) : List String :=
  if s = "a" then ["1", "2", "3", "4", "5", "6", "7", "8"]
  else if s = "ab" then ["z"]
  else ["x1", "x2", "x3", "x4", "x5", "x6", "x7", "x8", "x9"]

/-- The claim's link envelope, following the spec's words for §4.2:
`{code: <block body>, options: {theme: "default"}}`. -/
def claimEnvelopeOptions (b : String) : String :=
  "\x7b\"code\": " ++ jsonString b ++ ", \"options\": \x7b\"theme\": \"default\"\x7d\x7d"

/-- The claim's full link: fixed viewer base URL followed by the base64
encoding of the compressed serialized claim envelope. -/
def claimLinkOptions (pako_deflate : List Nat → List Nat) (b : String) : String :=
  "http://mermaid.live/view#pako:" ++
    js_bytes_to_string (js_btoa (pako_deflate (js_string_to_byte (claimEnvelopeOptions b))))

/-- The amended claim's link envelope: the JSON key is `"mermaid"`, not
`"options"`. -/
def amendedEnvelopeMermaid (b : String) : String :=
  "\x7b\"code\": " ++ jsonString b ++ ", \"mermaid\": \x7b\"theme\": \"default\"\x7d\x7d"

/-- Concrete call input used by the C2 witness (first, non-final call). -/
def callA : CallInput := ⟨⟨1, 1⟩, ⟨0, 1⟩, "aaaaaaaa", false⟩

/-- Concrete call input used by the C2 witness (second, final call). -/
def callB : CallInput := ⟨⟨2, 1⟩, ⟨0, 1⟩, "aaaaaaaaaa", true⟩

end MDStream

/-!
## Theorems

First a layer of shared lemmas about `update` and the trace runners, then
one theorem per claim (with witnesses and counterexamples where needed).
-/

namespace MDStream

/-! ### Helper lemmas on Python slices -/

theorem pyIdx_nonneg (n : Nat) (k : Int) (h : 0 ≤ k) :
    pyIdx n k = min k.toNat n := by
  simp [pyIdx, not_lt.mpr h]

theorem pyIdx_zero (n : Nat) : pyIdx n 0 = 0 := by
  simp [pyIdx]

theorem pySlice_zero {α : Type} (l : List α) (j : Int) :
    pySlice l 0 j = l.take (pyIdx l.length j) := by
  simp [pySlice, pyIdx_zero]

theorem length_pySlice_zero {α : Type} (l : List α) (j : Int) (h0 : 0 ≤ j) :
    (pySlice l 0 j).length = min j.toNat l.length := by
  simp [pySlice_zero, pyIdx_nonneg _ _ h0, List.length_take]

/-- Prepending the matching `take` to a Python slice `l[np:n]` reassembles
the longer prefix `l[:n]`. -/
theorem take_append_pySlice {α : Type} (l : List α) (np : Nat) (n : Int)
    (h1 : (np : Int) < n) (h2 : np ≤ l.length) :
    l.take np ++ pySlice l (np : Int) n = pySlice l 0 n := by
  have hn0 : ¬ (n < 0) := by omega
  have hnp0 : ¬ ((np : Int) < 0) := by omega
  simp only [pySlice, pyIdx, hn0, hnp0, if_false, Int.toNat_natCast, ite_false,
    show ¬ ((0 : Int) < 0) by decide, Int.toNat_zero, Nat.zero_min, List.drop_zero]
  have hmin : min np l.length = np := min_eq_left h2
  rw [hmin]
  have hnpm : np ≤ min n.toNat l.length := by omega
  conv_lhs =>
    rw [show l.take np = (l.take (min n.toNat l.length)).take np by
      rw [List.take_take, min_eq_left hnpm]]
  exact List.take_append_drop np (l.take (min n.toNat l.length))

/-! ### Step lemmas about `update` -/

/-- Whatever one call does, the lines it commits extend the previously
printed record into exactly the new printed record — provided the
previously printed record is a prefix of this call's render. -/
theorem update_committed_extends (render : String → List String) (st : MDState)
    (now rt : MTime) (text : String) (final : Bool)
    (hpre : st.printed <+: render text) :
    st.printed ++ (update render st now rt text final).committed
      = (update render st now rt text final).st.printed := by
  have hq : st.printed = (render text).take st.printed.length :=
    List.prefix_iff_eq_take.mp hpre
  have hlen : st.printed.length ≤ (render text).length := hpre.length_le
  cases final
  · simp only [update, Bool.false_eq_true, false_or, and_true, eq_self_iff_true,
      true_and, if_true, ite_true, ite_false]
    split_ifs with h1 h2 h3 h4
    · simp
    · simp
    · simp
    · -- non-final commit branch
      have key := take_append_pySlice (render text) st.printed.length
        (((render text).length : Int) - (live_window : Int)) (by omega) hlen
      rw [← hq] at key
      exact key
    · simp
    · simp
  · simp only [update, Bool.true_eq_false, false_and, if_false, true_or, if_true,
      ite_true, ite_false]
    split_ifs with h1 h2
    · simp
    · simp
    · -- final commit branch
      have key := take_append_pySlice (render text) st.printed.length
        ((render text).length : Int) (by omega) hlen
      rw [← hq] at key
      exact key

/-- A non-final call never changes `liveOpen`. -/
theorem update_nonfinal_liveOpen (render : String → List String) (st : MDState)
    (now rt : MTime) (text : String) :
    (update render st now rt text false).st.liveOpen = st.liveOpen := by
  simp only [update, Bool.false_eq_true, false_or, and_true, eq_self_iff_true,
    true_and, if_true, ite_true, ite_false]
  split_ifs <;> rfl

/-- A processed final call on an open instance whose printed record is a
prefix of the render leaves the full render as the printed record. -/
theorem update_final_printed (render : String → List String) (st : MDState)
    (now rt : MTime) (text : String)
    (hopen : st.liveOpen = true)
    (hpre : st.printed <+: render text) :
    (update render st now rt text true).st.printed = render text := by
  have hq : st.printed = (render text).take st.printed.length :=
    List.prefix_iff_eq_take.mp hpre
  have hlen : st.printed.length ≤ (render text).length := hpre.length_le
  simp only [update, Bool.true_eq_false, false_and, if_false, true_or, if_true,
    ite_true, ite_false]
  split_ifs with h1 h2
  · -- show ≤ 0 : printed already covers the whole render
    have : st.printed.length = (render text).length := by omega
    rw [hq, this, List.take_length]
  · -- closed instance: excluded by hopen
    rw [hopen] at h2
    cases h2
  · -- commit branch: printed becomes the whole render
    show pySlice (render text) 0 ((render text).length : Int) = render text
    rw [pySlice_zero, pyIdx_nonneg _ _ (by omega), Int.toNat_natCast, min_self,
      List.take_length]

/-! ### Trace lemmas -/

theorem runLog_fst (render : String → List String) (cs : List CallInput) :
    ∀ (st : MDState) (log : List String),
      (runLog render st log cs).1 = runState render st cs := by
  induction cs with
  | nil => intro st log; rfl
  | cons c cs ih => intro st log; simp only [runLog, runState]; exact ih _ _

theorem runLog_append (render : String → List String) (cs ds : List CallInput) :
    ∀ (st : MDState) (log : List String),
      runLog render st log (cs ++ ds)
        = runLog render (runLog render st log cs).1 (runLog render st log cs).2 ds := by
  induction cs with
  | nil => intro st log; rfl
  | cons c cs ih => intro st log; simp only [List.cons_append, runLog]; exact ih _ _

theorem runLog_log_prefix (render : String → List String) (cs : List CallInput) :
    ∀ (st : MDState) (log : List String), log <+: (runLog render st log cs).2 := by
  induction cs with
  | nil => intro st log; exact List.prefix_refl log
  | cons c cs ih =>
    intro st log
    simp only [runLog]
    exact (List.prefix_append log (step render st c).committed).trans (ih _ _)

/-- Under prefix-stability of the renders along the trace, the
permanent-output log always equals the current printed record. -/
theorem runLog_eq_printed (render : String → List String) (cs : List CallInput) :
    ∀ (st : MDState) (log : List String), log = st.printed →
      stableTrace render st cs = true →
      (runLog render st log cs).2 = (runState render st cs).printed := by
  induction cs with
  | nil => intro st log hlog _; exact hlog
  | cons c cs ih =>
    intro st log hlog hst
    rw [stableTrace, Bool.and_eq_true] at hst
    have hpre : st.printed <+: render c.text :=
      List.isPrefixOf_iff_prefix.mp hst.1
    simp only [runLog, runState]
    refine ih _ _ ?_ hst.2
    rw [hlog]
    exact update_committed_extends render st c.now c.renderTime c.text c.final hpre

/-- A trace of non-final calls never changes `liveOpen`. -/
theorem runState_liveOpen_nonfinal (render : String → List String)
    (cs : List CallInput) (hall : ∀ d ∈ cs, d.final = false) :
    ∀ st : MDState, (runState render st cs).liveOpen = st.liveOpen := by
  induction cs with
  | nil => intro st; rfl
  | cons c cs ih =>
    intro st
    simp only [runState]
    rw [ih (fun d hd => hall d (List.mem_cons_of_mem c hd)) _]
    have hc : c.final = false := hall c (List.mem_cons_self c cs)
    show (update render st c.now c.renderTime c.text c.final).st.liveOpen = st.liveOpen
    rw [hc]
    exact update_nonfinal_liveOpen render st c.now c.renderTime c.text

/-- Splitting `stableTrace` across an append. -/
theorem stableTrace_append (render : String → List String) (cs ds : List CallInput) :
    ∀ st : MDState,
      stableTrace render st (cs ++ ds)
        = (stableTrace render st cs && stableTrace render (runState render st cs) ds) := by
  induction cs with
  | nil => intro st; simp [stableTrace, runState]
  | cons c cs ih =>
    intro st
    simp only [List.cons_append, stableTrace, runState]
    rw [show cs.append ds = cs ++ ds from rfl, ih, Bool.and_assoc]

/-- Each call leaves `printed` unchanged or replaces it by a strictly
longer list. -/
theorem update_printed_same_or_longer (render : String → List String)
    (st : MDState) (now rt : MTime) (text : String) (final : Bool) :
    (update render st now rt text final).st.printed = st.printed ∨
      st.printed.length < (update render st now rt text final).st.printed.length := by
  cases final
  · simp only [update, Bool.false_eq_true, false_or, and_true, eq_self_iff_true,
      true_and, if_true, ite_true, ite_false]
    split_ifs with h1 h2 h3 h4
    · exact Or.inl rfl
    · exact Or.inl rfl
    · exact Or.inl rfl
    · refine Or.inr ?_
      rw [length_pySlice_zero _ _ (by omega)]
      omega
    · exact Or.inl rfl
    · exact Or.inl rfl
  · simp only [update, Bool.true_eq_false, false_and, if_false, true_or, if_true,
      ite_true, ite_false]
    split_ifs with h1 h2
    · exact Or.inl rfl
    · exact Or.inl rfl
    · refine Or.inr ?_
      rw [length_pySlice_zero _ _ (by omega)]
      omega

/-- The printed record's length is monotone along any call sequence. -/
theorem runState_printed_mono (render : String → List String) (cs : List CallInput) :
    ∀ st : MDState, st.printed.length ≤ (runState render st cs).printed.length := by
  induction cs with
  | nil => intro st; exact le_refl _
  | cons c cs ih =>
    intro st
    refine le_trans ?_ (ih (step render st c).st)
    rcases update_printed_same_or_longer render st c.now c.renderTime c.text c.final with
      h | h
    · show st.printed.length ≤ (step render st c).st.printed.length
      rw [step, h]
    · exact le_of_lt h

/-! ### The claims -/

/-- Claim C1 (code bug): on an accepted update, the committed and repainted
lines are rendered from the raw accumulated text, not from the
diagram-link–substituted text: here a final update on a text consisting of
one mermaid block commits exactly the render of the raw text, although the
substituted text renders differently (it contains the extra link line).
In the source, `processed_text` and the `Markdown` object built from it
are dead code — never printed. -/
theorem C1_lines_rendered_from_raw_text :
    (update lineRender initState ⟨1, 1⟩ ⟨0, 1⟩ "```mermaid\nA\n```" true).committed
        = lineRender "```mermaid\nA\n```" ∧
      lineRender (processText (fun bs => bs) "```mermaid\nA\n```")
        ≠ lineRender "```mermaid\nA\n```" := by decide

/-- Claim C2 (amended): across a sequence of calls on one instance whose
only final call is the last one, and whose rendering collaborator is
prefix-stable along the trace (before each call, the printed lines are a
prefix of that call's render), the concatenated committed-output log is at
every point a prefix of the committed output of the final full render, and
after the final call it equals it. -/
theorem C2_monotonic_commitment (render : String → List String)
    (cs : List CallInput) (c : CallInput) (k : Nat)
    (hstable : stableTrace render initState (cs ++ [c]) = true)
    (hnonfinal : ∀ d ∈ cs, d.final = false)
    (hfinal : c.final = true) :
    (runLog render initState [] ((cs ++ [c]).take k)).2 <+: render c.text ∧
      (runLog render initState [] (cs ++ [c])).2 = render c.text := by
  have h2 : (stableTrace render initState cs &&
      stableTrace render (runState render initState cs) [c]) = true := by
    rw [← stableTrace_append]; exact hstable
  rcases Bool.and_eq_true_iff.mp h2 with ⟨hA, hB⟩
  have hpre : (runState render initState cs).printed <+: render c.text := by
    rw [stableTrace, Bool.and_eq_true] at hB
    exact List.isPrefixOf_iff_prefix.mp hB.1
  have hopen : (runState render initState cs).liveOpen = true :=
    (runState_liveOpen_nonfinal render cs hnonfinal initState).trans rfl
  have hlog : (runLog render initState [] cs).2
      = (runState render initState cs).printed :=
    runLog_eq_printed render cs initState [] rfl hA
  have hfull : (runLog render initState [] (cs ++ [c])).2 = render c.text := by
    rw [runLog_append render cs [c] initState []]
    simp only [runLog, step, runLog_fst]
    rw [hlog]
    rw [update_committed_extends render (runState render initState cs)
      c.now c.renderTime c.text c.final hpre]
    rw [hfinal]
    exact update_final_printed render (runState render initState cs)
      c.now c.renderTime c.text hopen hpre
  refine ⟨?_, hfull⟩
  have hpref : (runLog render initState [] ((cs ++ [c]).take k)).2
      <+: (runLog render initState [] (cs ++ [c])).2 := by
    conv_rhs => rw [(List.take_append_drop k (cs ++ [c])).symm]
    rw [runLog_append]
    exact runLog_log_prefix render _ _ _
  rw [hfull] at hpref
  exact hpref

/-- Witness for C2: a two-call monotone trace under the per-character
formatter, for which the stability hypothesis holds by evaluation. -/
theorem C2_monotonic_commitment_witness :
    (stableTrace charRender initState ([callA] ++ [callB]) = true ∧
      List.all [callA] (fun d : CallInput => d.final == false) = true) ∧
      ((runLog charRender initState [] (([callA] ++ [callB]).take 1)).2
          <+: charRender "aaaaaaaaaa" ∧
        (runLog charRender initState [] ([callA] ++ [callB])).2
          = charRender "aaaaaaaaaa") :=
  ⟨⟨by decide, by decide⟩,
    C2_monotonic_commitment charRender [callA] callB 1 (by decide) (by decide) rfl⟩

/-- Counterexample to C2 as stated: with a formatter whose later render
rewrites an earlier line (which the design's §4.1 rationale allows), a
monotone trace ending in a final call yields a committed log that is not
a prefix of the final render's committed output. -/
theorem C2_not_prefix_counterexample :
    "a".toList.isPrefixOf "ab".toList = true ∧
      ¬ ((runLog renderA initState []
          [⟨⟨1, 1⟩, ⟨0, 1⟩, "a", false⟩, ⟨⟨2, 1⟩, ⟨0, 1⟩, "ab", true⟩]).2
          <+: renderA "ab") := by decide

/-- Claim C3 (amended): each call either leaves `printed` unchanged, or
reassigns it to a prefix of that call's render of length exactly the
render's length minus the live window (non-final) or the full render
length (final).  (Calls that commit nothing leave `printed` unchanged, so
it need not be a prefix of the most recent render.) -/
theorem C3_printed_prefix_amended (render : String → List String) (st : MDState)
    (now rt : MTime) (text : String) (final : Bool) :
    (update render st now rt text final).st.printed = st.printed ∨
      ((update render st now rt text final).st.printed <+: render text ∧
        (if final = true then
          (update render st now rt text final).st.printed.length = (render text).length
        else
          ((update render st now rt text final).st.printed.length : Int)
            = ((render text).length : Int) - (live_window : Int))) := by
  cases final
  · simp only [update, Bool.false_eq_true, false_or, and_true, eq_self_iff_true,
      true_and, if_true, if_false, ite_true, ite_false]
    split_ifs with h1 h2 h3 h4
    · exact Or.inl rfl
    · exact Or.inl rfl
    · exact Or.inl rfl
    · refine Or.inr ⟨?_, ?_⟩
      · rw [pySlice_zero]; exact List.take_prefix _ _
      · rw [length_pySlice_zero _ _ (by omega)]
        omega
    · exact Or.inl rfl
    · exact Or.inl rfl
  · simp only [update, Bool.true_eq_false, false_and, if_false, true_or, if_true,
      eq_self_iff_true, ite_true, ite_false]
    split_ifs with h1 h2
    · exact Or.inl rfl
    · exact Or.inl rfl
    · refine Or.inr ⟨?_, ?_⟩
      · rw [pySlice_zero]; exact List.take_prefix _ _
      · rw [length_pySlice_zero _ _ (by omega)]
        omega

/-- Counterexample to C3 as stated: after an accepted second call that
commits nothing, `printed` is not a prefix of the most recent render.
(`when = ⟨2,1⟩` shows the second call was accepted, not throttled.) -/
theorem C3_printed_prefix_counterexample :
    (let st1 := (update renderB initState ⟨1, 1⟩ ⟨0, 1⟩ "a" false).st
     let r2 := update renderB st1 ⟨2, 1⟩ ⟨0, 1⟩ "ab" false
     r2.st.when = ⟨2, 1⟩ ∧ ¬ (r2.st.printed <+: renderB "ab")) := by decide

/-- Claim C4 (amended): on an accepted non-final call on an open instance,
the live region is repainted wholesale with `lines[stable_count:]` when
`stable_count ≤ 0` or new stable lines exist; when `stable_count > 0` but
no new stable lines exist, the call returns without repainting. -/
theorem C4_repaint_amended (render : String → List String) (st : MDState)
    (now rt : MTime) (text : String)
    (hacc : (now.sub st.when).blt st.min_delay = false)
    (hopen : st.liveOpen = true)
    (hcase : ((render text).length : Int) - (live_window : Int) ≤ 0 ∨
      (st.printed.length : Int) < ((render text).length : Int) - (live_window : Int)) :
    (update render st now rt text false).repainted
        = some (String.join (pySliceFrom (render text)
            (((render text).length : Int) - (live_window : Int)))) ∧
      (update render st now rt text false).st.live
        = String.join (pySliceFrom (render text)
            (((render text).length : Int) - (live_window : Int))) := by
  simp only [update, Bool.false_eq_true, false_or, and_true, eq_self_iff_true,
    true_and, if_true, if_false, ite_true, ite_false]
  split_ifs with h1 h2 h3 h4 h5
  · rw [hacc] at h1; cases h1
  · rcases hcase with h | h <;> omega
  · rw [hopen] at h4; cases h4
  · exact ⟨rfl, rfl⟩
  · rw [hopen] at h5; cases h5
  · exact ⟨rfl, rfl⟩

/-- Witness for C4: a fresh instance, an accepted call on eight rendered
lines: the live region is repainted with the joined trailing six lines. -/
theorem C4_repaint_amended_witness :
    ((MTime.sub ⟨1, 1⟩ initState.when).blt initState.min_delay = false ∧
      initState.liveOpen = true ∧
      (initState.printed.length : Int)
        < ((charRender "aaaaaaaa").length : Int) - (live_window : Int)) ∧
      ((update charRender initState ⟨1, 1⟩ ⟨0, 1⟩ "aaaaaaaa" false).repainted
          = some (String.join (pySliceFrom (charRender "aaaaaaaa")
              (((charRender "aaaaaaaa").length : Int) - (live_window : Int)))) ∧
        (update charRender initState ⟨1, 1⟩ ⟨0, 1⟩ "aaaaaaaa" false).st.live
          = String.join (pySliceFrom (charRender "aaaaaaaa")
              (((charRender "aaaaaaaa").length : Int) - (live_window : Int)))) :=
  ⟨⟨by decide, by decide, by decide⟩,
    C4_repaint_amended charRender initState ⟨1, 1⟩ ⟨0, 1⟩ "aaaaaaaa"
      (by decide) (by decide) (Or.inr (by decide))⟩

/-- Counterexample to C4 as stated: an accepted non-final call with
`stable_count > 0` and no new stable lines returns without repainting, so
the stale live content (from the previous call) lingers. -/
theorem C4_no_repaint_counterexample :
    (let st1 := (update renderB initState ⟨1, 1⟩ ⟨0, 1⟩ "a" false).st
     let r2 := update renderB st1 ⟨2, 1⟩ ⟨0, 1⟩ "ab" false
     r2.st.when = ⟨2, 1⟩ ∧
       0 < ((renderB "ab").length : Int) - (live_window : Int) ∧
       r2.repainted = none ∧ r2.st.live = "345678") := by decide

/-- Claim C5: `len(printed)` never decreases: a call either leaves
`printed` unchanged or replaces it by a strictly longer list, and along
any call sequence its length is monotone. -/
theorem C5_printed_never_shrinks (render : String → List String) (st : MDState)
    (now rt : MTime) (text : String) (final : Bool) (cs : List CallInput) :
    ((update render st now rt text final).st.printed = st.printed ∨
      st.printed.length < (update render st now rt text final).st.printed.length) ∧
      st.printed.length ≤ (runState render st cs).printed.length :=
  ⟨update_printed_same_or_longer render st now rt text final,
    runState_printed_mono render cs st⟩

/-- Counterexample to C6 as stated: with the identity compressor, the
generated link differs from the claim's link built from the
`{code, options: {theme}}` envelope — the source serializes the key
`"mermaid"`, not `"options"`. -/
theorem C6_envelope_counterexample :
    generate_mermaid_link (fun bs => bs) "A" ≠ claimLinkOptions (fun bs => bs) "A" := by
  decide

/-- Claim C6 (amended): for every block body, the generated link is the
fixed viewer base URL followed by the base64 encoding of the
deflate-compression at maximum compression level — the source's
`zlib.compressobj(9, DEFLATED, 15, 8, Z_DEFAULT_STRATEGY)` pipeline,
which enters the embedding as the abstract collaborator `pako_deflate` —
of the JSON serialization of `{code: body, mermaid: {theme: "default"}}`
(the envelope's second key is `"mermaid"`, not `"options"` as the claim
stated; nothing else changes). -/
theorem C6_link_pipeline_amended (pako_deflate : List Nat → List Nat) (b : String) :
    generate_mermaid_link pako_deflate b
      = "http://mermaid.live/view#pako:" ++
          js_bytes_to_string (js_btoa (pako_deflate
            (js_string_to_byte (amendedEnvelopeMermaid b)))) := rfl

set_option maxRecDepth 8192 in
/-- Claim C7 (code bug): with two mermaid blocks, the second link is
inserted at the second match's original-text end offset into the string
already grown by the first insertion — landing 16+21 characters in, i.e.
inside the first inserted link — instead of immediately after the second
block; hence the processed text differs from the spec-faithful splice. -/
theorem C7_second_link_misplaced :
    processText (fun bs => bs) "```mermaid\nA\n```\nmid\n```mermaid\nB\n```"
        ≠ processTextSpec (fun bs => bs) "```mermaid\nA\n```\nmid\n```mermaid\nB\n```" ∧
      processText (fun bs => bs) "```mermaid\nA\n```\nmid\n```mermaid\nB\n```"
        = String.mk ("```mermaid\nA\n```\nmid\n```mermaid\nB\n```".toList.take 16
            ++ (viewInsert (generate_mermaid_link (fun bs => bs) "A")).toList.take 21
            ++ (viewInsert (generate_mermaid_link (fun bs => bs) "B")).toList
            ++ (viewInsert (generate_mermaid_link (fun bs => bs) "A")).toList.drop 21
            ++ "```mermaid\nA\n```\nmid\n```mermaid\nB\n```".toList.drop 16) := by decide

/-- Claim C8 (code bug): finalization is not terminal.  When the final
call's render has no more lines than already printed, `update` returns
before the final cleanup (`show <= 0` early return), leaving the live
display open; a later non-final call then commits a line and repaints. -/
theorem C8_finalization_not_terminal :
    (let st1 := (update renderC initState ⟨1, 1⟩ ⟨0, 1⟩ "a" false).st
     let r2 := update renderC st1 ⟨2, 1⟩ ⟨0, 1⟩ "ab" true
     let r3 := update renderC r2.st ⟨3, 1⟩ ⟨0, 1⟩ "abc" false
     r2.st.when = ⟨2, 1⟩ ∧ r2.st.liveOpen = true ∧
       r3.committed = ["x3"] ∧ r3.repainted = some "x4x5x6x7x8x9") := by decide

/-- Claim C9: a non-final call arriving sooner after the last accepted
update than the adaptive delay is a no-op — the state (printed record,
timestamp, adaptive delay, live region) is returned unchanged, nothing is
committed, nothing is repainted. -/
theorem C9_throttled_noop (render : String → List String) (st : MDState)
    (now rt : MTime) (text : String)
    (hth : (now.sub st.when).blt st.min_delay = true) :
    update render st now rt text false = ⟨st, [], none, false⟩ := by
  unfold update
  rw [if_pos ⟨rfl, hth⟩]

/-- Witness for C9: a fresh instance and a second call 1/100 s after
construction, below the initial 1/20 s delay. -/
theorem C9_throttled_noop_witness :
    (MTime.sub ⟨1, 100⟩ initState.when).blt initState.min_delay = true ∧
      update charRender initState ⟨1, 100⟩ ⟨0, 1⟩ "x" false
        = ⟨initState, [], none, false⟩ :=
  ⟨by decide, C9_throttled_noop charRender initState ⟨1, 100⟩ ⟨0, 1⟩ "x" (by decide)⟩

/-- Claim C10: an accepted non-final call with a positive stable count but
no new stable lines still updates the throttling state — the last-update
timestamp becomes `now` and the adaptive delay is recomputed — while the
printed record and the live region are left unchanged and nothing is
committed or repainted. -/
theorem C10_no_new_stable_frame (render : String → List String) (st : MDState)
    (now rt : MTime) (text : String)
    (hacc : (now.sub st.when).blt st.min_delay = false)
    (hn : 0 < ((render text).length : Int) - (live_window : Int))
    (hshow : ((render text).length : Int) - (live_window : Int)
      ≤ (st.printed.length : Int)) :
    update render st now rt text false =
      ⟨{ st with
          when := now
          min_delay := MTime.pmin (MTime.pmax (rt.mulNat 10) MTime.oneTwentieth)
            MTime.twoSec },
        [], none, false⟩ := by
  unfold update
  simp only [hacc, Bool.false_eq_true, and_false, if_false, eq_self_iff_true, if_true,
    ite_true, ite_false, false_or]
  split_ifs <;> first | rfl | omega

/-- Witness for C10: two lines already printed, the render still has eight
lines, so the stable count (2) equals the printed count — nothing new. -/
theorem C10_no_new_stable_frame_witness :
    ((MTime.sub ⟨1, 1⟩ (⟨0, 1⟩ : MTime)).blt ⟨1, 20⟩ = false ∧
      0 < ((renderB "zz").length : Int) - (live_window : Int) ∧
      ((renderB "zz").length : Int) - (live_window : Int) ≤ ((2 : Nat) : Int)) ∧
      update renderB ⟨["p", "q"], ⟨0, 1⟩, ⟨1, 20⟩, true, "L"⟩ ⟨1, 1⟩ ⟨0, 1⟩ "zz" false
        = ⟨⟨["p", "q"], ⟨1, 1⟩,
            MTime.pmin (MTime.pmax (MTime.mulNat ⟨0, 1⟩ 10) MTime.oneTwentieth)
              MTime.twoSec, true, "L"⟩,
          [], none, false⟩ :=
  ⟨⟨by decide, by decide, by decide⟩,
    C10_no_new_stable_frame renderB ⟨["p", "q"], ⟨0, 1⟩, ⟨1, 20⟩, true, "L"⟩
      ⟨1, 1⟩ ⟨0, 1⟩ "zz" (by decide) (by decide) (by decide)⟩

end MDStream
